import Mathlib

/-!
Verification of the Monitored-Entity Registry & Activity-Risk Pipeline of the
`Teamerz1111/backend` repository.  The definitions below are a shallow
embedding of `src/routes/walletMonitoring.js` together with its collaborators
`src/services/ogBlockchain.js` (durable "0G" store, a simulated stub in the
source: storing is a no-op and retrieval always returns an empty wallet list)
and the blockchain data service (`getAggregatedWalletActivity`,
`getTokenContractActivity`, per-kind fetchers).

JavaScript numbers are modelled as `ℚ` (for values that the code obtains via
`parseFloat` and compares against decimal thresholds) or as `Nat`/`Int`
counters and timestamps; JS `Map` is modelled as an insertion-ordered
association list with in-place overwrite, matching `Map.prototype.set`,
`get` and `delete`.
-/

namespace WalletMonitoring

/-! ## Risk levels (`getRiskScore`, verdict levels) -/

/-- The risk levels appearing in the source (`getRiskScore` enumerates
`critical`, `high`, `medium`, `low`). -/
inductive RiskLevel
  | low
  | medium
  | high
  | critical
deriving DecidableEq, Repr

/-- Position of a risk level in the escalation order low → medium → high
(→ critical), used to state monotonicity. -/
def levelRank : RiskLevel → Nat
  | .low => 0
  | .medium => 1
  | .high => 2
  | .critical => 3

/-- `getRiskScore(riskLevel)` from `walletMonitoring.js` (default branch
returns 25, same as `low`). -/
def getRiskScore : RiskLevel → Nat
  | .critical => 90
  | .high => 75
  | .medium => 50
  | .low => 25

/-! ## Rule-based fallback analysis (`generateFallbackAnalysis`) -/

/-- A recent transaction as consumed by `generateFallbackAnalysis`: only the
`isError` flag is inspected there. -/
structure TxRecord where
  isError : Bool
deriving DecidableEq, Repr

/-- The `walletData` argument of `generateFallbackAnalysis`.  `dailyVolume`
is the numeric value of the wei-denominated string (the code applies
`parseFloat` to it); `recentTokenTransfers` only contributes its length, so
its elements are abstracted to `Unit`. -/
structure WalletData where
  dailyTxCount : Nat
  dailyVolume : ℚ
  recentTransactions : List TxRecord
  recentTokenTransfers : List Unit
  totalTransactions : Nat

/-- The mutable triple `(riskLevel, isUnusual, anomalies)` threaded through
the rule chain of `generateFallbackAnalysis`. -/
structure RState where
  riskLevel : RiskLevel
  isUnusual : Bool
  anomalies : List String
deriving DecidableEq, Repr

/-- Initial state of the rule chain: `riskLevel = 'low'`,
`isUnusual = false`, `anomalies = []`. -/
def initialRState : RState := ⟨.low, false, []⟩

/-- First rule: `dailyTxCount > 100` sets high/unusual and pushes
`high_frequency_transactions`; `dailyTxCount > 50` sets medium and pushes
`moderate_frequency_transactions`. -/
def frequencyCheck (w : WalletData) : RState :=
  if w.dailyTxCount > 100 then
    ⟨.high, true, ["high_frequency_transactions"]⟩
  else if w.dailyTxCount > 50 then
    ⟨.medium, false, ["moderate_frequency_transactions"]⟩
  else initialRState

/-- `const dailyVolumeEth = parseFloat(dailyVolume) / 1e18`. -/
def dailyVolumeEth (w : WalletData) : ℚ := w.dailyVolume / (10 ^ 18)

/-- Second rule: converted volume `> 100` sets high/unusual and pushes
`large_volume_spike`; `> 10` raises low to medium and pushes
`elevated_volume`. -/
def volumeCheck (w : WalletData) (s : RState) : RState :=
  if dailyVolumeEth w > 100 then
    ⟨.high, true, s.anomalies ++ ["large_volume_spike"]⟩
  else if dailyVolumeEth w > 10 then
    ⟨if s.riskLevel = .low then .medium else s.riskLevel, s.isUnusual,
      s.anomalies ++ ["elevated_volume"]⟩
  else s

/-- `recentTransactions.filter(tx => tx.isError).length`. -/
def failedTxCount (w : WalletData) : Nat :=
  (w.recentTransactions.filter (fun tx => tx.isError)).length

/-- Third rule: `failedTxCount > dailyTxCount * 0.3` raises low to medium and
pushes `high_failure_rate`. -/
def failureCheck (w : WalletData) (s : RState) : RState :=
  if (failedTxCount w : ℚ) > (w.dailyTxCount : ℚ) * (3 / 10) then
    ⟨if s.riskLevel = .low then .medium else s.riskLevel, s.isUnusual,
      s.anomalies ++ ["high_failure_rate"]⟩
  else s

/-- Fourth rule: `recentTokenTransfers.length > 20` raises low to medium and
pushes `high_token_activity`. -/
def tokenActivityCheck (w : WalletData) (s : RState) : RState :=
  if w.recentTokenTransfers.length > 20 then
    ⟨if s.riskLevel = .low then .medium else s.riskLevel, s.isUnusual,
      s.anomalies ++ ["high_token_activity"]⟩
  else s

/-- Final step: `if (riskLevel === 'high') isUnusual = true`. -/
def highRiskFinalize (s : RState) : RState :=
  if s.riskLevel = .high then ⟨s.riskLevel, true, s.anomalies⟩ else s

/-- Confidence: base 0.6, `+0.1` for each of lifetime count `> 100`, daily
count `> 0`, token transfers present; capped by `Math.min(confidence, 0.9)`. -/
def fallbackConfidence (w : WalletData) : ℚ :=
  min ((3 / 5) + (if w.totalTransactions > 100 then (1 : ℚ) / 10 else 0)
      + (if w.dailyTxCount > 0 then (1 : ℚ) / 10 else 0)
      + (if w.recentTokenTransfers.length > 0 then (1 : ℚ) / 10 else 0))
    (9 / 10)

/-- The verdict object returned by `generateFallbackAnalysis` (display-only
fields `reason`, `dailyVolume`, `avgAmount` and the constant
`fallbackAnalysis: true` are omitted). -/
structure FallbackVerdict where
  isUnusual : Bool
  riskLevel : RiskLevel
  confidence : ℚ
  anomalies : List String
deriving DecidableEq, Repr

/-- The state of the rule chain after all four checks and the final
high-risk fixup. -/
def fallbackChain (w : WalletData) : RState :=
  highRiskFinalize (tokenActivityCheck w (failureCheck w (volumeCheck w (frequencyCheck w))))

/-- `generateFallbackAnalysis(walletData)` from `walletMonitoring.js`. -/
def generateFallbackAnalysis (w : WalletData) : FallbackVerdict :=
  let s := fallbackChain w
  ⟨s.isUnusual, s.riskLevel, fallbackConfidence w, s.anomalies⟩

/-! ## Addresses and the monitored-wallet map -/

/-- JS `String.prototype.toLowerCase` restricted to the ASCII alphabet used
by chain addresses. -/
def toLowerCase (s : String) : String := ⟨s.data.map Char.toLower⟩

def isHexDigitChar (c : Char) : Bool :=
  c.isDigit || ('a' ≤ c && c ≤ 'f') || ('A' ≤ c && c ≤ 'F')

/-- Models `ethers.isAddress` (third-party library, not repository code): a
`0x`-prefixed string of 40 hex digits.  EIP-55 mixed-case checksum
validation is abstracted away; every claim below takes validity of the
address as a hypothesis, so only the shape of the predicate is needed. -/
def isAddress (s : String) : Bool :=
  s.data.length = 42 && s.data.take 2 = ['0', 'x'] && (s.data.drop 2).all isHexDigitChar

/-- A monitored entity as built by `POST /monitor/:address` (the nested
`riskAnalysis` response object is reduced to its risk level, `none` standing
for a failed analysis, i.e. JS `null`). -/
structure MonitoredItem where
  address : String
  kind : String
  threshold : ℤ
  chainId : String
  status : String
  addedAt : ℤ
  lastChecked : ℤ
  hasAlerts : Bool
  alertCount : ℕ
  riskAnalysis : Option RiskLevel
  riskLevel : RiskLevel
  riskScore : ℕ
deriving DecidableEq, Repr

/-- The `monitoredWallets` JS `Map`: an insertion-ordered association
list. -/
abbrev Registry := List (String × MonitoredItem)

/-- `Map.prototype.set`: overwrite in place when the key exists, append
otherwise. -/
def mapSet (k : String) (v : MonitoredItem) : Registry → Registry
  | [] => [(k, v)]
  | (k', v') :: rest =>
    if k' = k then (k, v) :: rest else (k', v') :: mapSet k v rest

/-- `Map.prototype.get`. -/
def mapGet (k : String) : Registry → Option MonitoredItem
  | [] => none
  | (k', v') :: rest => if k' = k then some v' else mapGet k rest

/-- `Map.prototype.delete`: the `Bool` is the JS return value (`true` iff
the key was present). -/
def mapDelete (k : String) : Registry → Bool × Registry
  | [] => (false, [])
  | (k', v') :: rest =>
    if k' = k then (true, rest)
    else
      let r := mapDelete k rest
      (r.1, (k', v') :: r.2)

/-- `Array.from(map.values())`. -/
def mapValues (r : Registry) : List MonitoredItem := r.map (fun p => p.2)

def mapKeys (r : Registry) : List String := r.map (fun p => p.1)

/-- Well-formedness of the monitored-wallet map: keys are distinct (as in
any JS `Map`) and each stored entity's `address` field equals its key — the
code always keys an entity by `address.toLowerCase()` and entities built by
the monitor route store that same lower-cased address. -/
def wfRegistry (st : Registry) : Prop :=
  (mapKeys st).Nodup ∧ ∀ p ∈ st, (p.2).address = p.1

/-- The `monitoredItem` object built by `POST /monitor/:address`: lower-cased
address, caller-supplied type/threshold/chainId, status `monitoring_active`,
`addedAt`/`lastChecked` timestamps, no alerts yet, `riskLevel` from the risk
analysis or `'low'` when the analysis failed, `riskScore` via `getRiskScore`
(25 when the analysis failed). -/
def mkMonitoredItem (address kind : String) (threshold : ℤ) (chainId : String)
    (now : ℤ) (riskAnalysis : Option RiskLevel) : MonitoredItem where
  address := toLowerCase address
  kind := kind
  threshold := threshold
  chainId := chainId
  status := "monitoring_active"
  addedAt := now
  lastChecked := now
  hasAlerts := false
  alertCount := 0
  riskAnalysis := riskAnalysis
  riskLevel := riskAnalysis.getD .low
  riskScore :=
    match riskAnalysis with
    | some l => getRiskScore l
    | none => 25

/-- Registry effect of `POST /monitor/:address`: `none` models the 400
response for an invalid address, otherwise
`monitoredWallets.set(address.toLowerCase(), monitoredItem)`. -/
def monitorRegistry (st : Registry) (address kind : String) (threshold : ℤ)
    (chainId : String) (now : ℤ) (riskAnalysis : Option RiskLevel) : Option Registry :=
  if isAddress address then
    some (mapSet (toLowerCase address)
      (mkMonitoredItem address kind threshold chainId now riskAnalysis) st)
  else none

/-- `GET /monitored`: the `wallets` array is
`Array.from(monitoredWallets.values())`. -/
def listMonitored (st : Registry) : List MonitoredItem := mapValues st

/-- Outcome of `DELETE /monitor/:address`: 400 (invalid address), 404
(`delete` returned false), or success. -/
inductive RemoveOutcome
  | invalid
  | notFound
  | removed
deriving DecidableEq, Repr

/-- Registry effect of `DELETE /monitor/:address`:
`monitoredWallets.delete(address.toLowerCase())`; a 404 leaves the registry
unchanged. -/
def removeRegistry (st : Registry) (address : String) : RemoveOutcome × Registry :=
  if isAddress address then
    let r := mapDelete (toLowerCase address) st
    if r.1 then (.removed, r.2) else (.notFound, st)
  else (.invalid, st)

/-! ## Persistence world: backup file and the stubbed 0G durable store -/

/-- Persistent state around the registry: the in-memory map and the local
backup file (`data/monitored-wallets-backup.json`, a JSON array of
entities; `none` = file absent/unreadable).  The durable 0G store needs no
state of its own: in `src/services/ogBlockchain.js`,
`storeMonitoredWallets`/`storeWalletEvent` are simulated (they log and
return success without persisting anything) and `retrieveMonitoredWallets`
always returns an empty wallet list. -/
structure World where
  registry : Registry
  backupFile : Option (List MonitoredItem)

/-- `saveToBackupFile()`: writes `Array.from(monitoredWallets.values())`
to the backup file (file-system errors are caught and logged; modelled as a
successful write). -/
def saveToBackupFile (w : World) : World :=
  { w with backupFile := some (mapValues w.registry) }

/-- `syncWalletsTo0G()`: only `if (walletsArray.length > 0)` does it store
to 0G (a no-op in the stubbed service) and then `saveToBackupFile()`; with
an empty wallet array nothing at all is persisted and the backup file keeps
its previous contents. -/
def syncWalletsTo0G (w : World) : World :=
  if (mapValues w.registry).length > 0 then saveToBackupFile w else w

/-- `POST /monitor/:address` over the persistence world: validate, `set`
into the map, `saveToBackupFile()`, store the `added` event (a no-op in the
stubbed 0G service), then `syncWalletsTo0G()`. -/
def worldMonitor (w : World) (address kind : String) (threshold : ℤ)
    (chainId : String) (now : ℤ) (riskAnalysis : Option RiskLevel) : Option World :=
  match monitorRegistry w.registry address kind threshold chainId now riskAnalysis with
  | none => none
  | some st' => some (syncWalletsTo0G (saveToBackupFile { w with registry := st' }))

/-- `DELETE /monitor/:address` over the persistence world: validate,
`delete` from the map (404 leaves the world unchanged), store the `removed`
event (no-op), then `syncWalletsTo0G()`. -/
def worldRemove (w : World) (address : String) : RemoveOutcome × World :=
  let r := removeRegistry w.registry address
  match r.1 with
  | .removed => (.removed, syncWalletsTo0G { w with registry := r.2 })
  | out => (out, w)

/-! ## Cold-start loading (`loadWalletsFrom0G`, `loadFromBackupFile`) -/

/-- `loadFromBackupFile()`: parse the backup JSON array and `set` each
entity keyed by `wallet.address.toLowerCase()`, returning `true`; a
missing/unreadable file is caught and yields `false` with the registry
untouched. -/
def loadFromBackupFile (st : Registry) (backup : Option (List MonitoredItem)) :
    Bool × Registry :=
  match backup with
  | some ws => (true, ws.foldl (fun m it => mapSet (toLowerCase it.address) it m) st)
  | none => (false, st)

/-- Outcome of `ogBlockchainService.retrieveMonitoredWallets()` as observed
by `loadWalletsFrom0G`: an error (the `catch` path) or a wallet list.  The
stubbed service in `src/services/ogBlockchain.js` always yields `.ok []`. -/
abbrev DurableResult := Except Unit (List MonitoredItem)

/-- `loadWalletsFrom0G()` over explicit collaborator results: when the 0G
result carries a non-empty wallet list, `set` each wallet keyed by its
lower-cased address (`loaded = true`); on a 0G error or an empty list, fall
back to `loadFromBackupFile`; every failure is caught, so the function
always returns a registry. -/
def loadWalletsFrom0G (st : Registry) (durable : DurableResult)
    (backup : Option (List MonitoredItem)) : Registry :=
  match durable with
  | .ok ws =>
    if ws.length > 0 then ws.foldl (fun m it => mapSet (toLowerCase it.address) it m) st
    else (loadFromBackupFile st backup).2
  | .error _ => (loadFromBackupFile st backup).2

/-- Cold start: a fresh process begins with an empty `monitoredWallets` map
and runs `loadWalletsFrom0G()`; the stubbed 0G service makes the durable
result `.ok []`. -/
def coldStartReload (w : World) : Registry :=
  loadWalletsFrom0G [] (.ok []) w.backupFile

/-! ## Activity feed (`GET /activity-feed`, blockchainData service) -/

/-- A normalized activity record.  Only the ordering key `timestamp` (and
an identifying hash) influence control flow in the aggregation code; the
remaining formatted fields carried by the upstream service are omitted. -/
structure Activity where
  hash : String
  timestamp : ℤ
deriving DecidableEq, Repr

/-- The upstream Etherscan-backed sources, per address.  Each fetcher asks
the API for at most `limit` records (`offset: limit`, one page), modelled
by truncating the per-address stream; an upstream error yields `[]` in the
service (`catch` → `return []`), which the stream model absorbs. -/
structure Upstream where
  transactions : String → List Activity
  tokenTransfers : String → List Activity
  nftTransfers : String → List Activity
  internalTxs : String → List Activity
  tokenContract : String → List Activity

/-- `blockchainDataService.getWalletTransactions(address, limit)`. -/
def getWalletTransactions (u : Upstream) (address : String) (limit : Nat) : List Activity :=
  (u.transactions address).take limit

/-- `blockchainDataService.getTokenTransfers(address, limit)`. -/
def getTokenTransfers (u : Upstream) (address : String) (limit : Nat) : List Activity :=
  (u.tokenTransfers address).take limit

/-- `blockchainDataService.getNFTTransfers(address, limit)`. -/
def getNFTTransfers (u : Upstream) (address : String) (limit : Nat) : List Activity :=
  (u.nftTransfers address).take limit

/-- `blockchainDataService.getInternalTransactions(address, limit)`. -/
def getInternalTransactions (u : Upstream) (address : String) (limit : Nat) : List Activity :=
  (u.internalTxs address).take limit

/-- `blockchainDataService.getTokenContractActivity(contractAddress, limit)`. -/
def getTokenContractActivity (u : Upstream) (address : String) (limit : Nat) : List Activity :=
  (u.tokenContract address).take limit

/-- The comparator `(a, b) => b.timestamp - a.timestamp`: newest first. -/
def newestFirst (a b : Activity) : Prop := b.timestamp ≤ a.timestamp

instance : DecidableRel newestFirst :=
  fun a b => inferInstanceAs (Decidable (b.timestamp ≤ a.timestamp))

instance : IsTotal Activity newestFirst := ⟨fun a b => le_total b.timestamp a.timestamp⟩

instance : IsTrans Activity newestFirst := ⟨fun _ _ _ h1 h2 => le_trans h2 h1⟩

/-- `allActivities.sort((a, b) => b.timestamp - a.timestamp)`: a stable sort
by descending timestamp. -/
def sortByTimestampDesc (l : List Activity) : List Activity :=
  List.insertionSort newestFirst l

/-- `blockchainDataService.getAggregatedWalletActivity(address, limit)`:
fetch all four kinds with the same limit, concatenate, sort newest first,
`slice(0, limit)`. -/
def getAggregatedWalletActivity (u : Upstream) (address : String) (limit : Nat) :
    List Activity :=
  (sortByTimestampDesc
    (getWalletTransactions u address limit ++ getTokenTransfers u address limit
      ++ getNFTTransfers u address limit ++ getInternalTransactions u address limit)).take
    limit

/-- An activity of the aggregated feed, annotated with its monitoring
context (`monitoredItem`, `monitoredType`, `monitoredChainId`,
`itemThreshold`, `itemRiskLevel`). -/
structure FeedEntry where
  activity : Activity
  monitoredItem : String
  monitoredType : String
  monitoredChainId : String
  itemThreshold : ℤ
  itemRiskLevel : RiskLevel
deriving DecidableEq, Repr

/-- The feed comparator on annotated entries. -/
def feedNewestFirst (a b : FeedEntry) : Prop :=
  b.activity.timestamp ≤ a.activity.timestamp

instance : DecidableRel feedNewestFirst :=
  fun a b => inferInstanceAs (Decidable (b.activity.timestamp ≤ a.activity.timestamp))

instance : IsTotal FeedEntry feedNewestFirst :=
  ⟨fun a b => le_total b.activity.timestamp a.activity.timestamp⟩

instance : IsTrans FeedEntry feedNewestFirst := ⟨fun _ _ _ h1 h2 => le_trans h2 h1⟩

/-- The wallets taking part in a feed request:
`Array.from(monitoredWallets.values()).filter(w => !chainId || w.chainId === chainId)`. -/
def feedFilteredItems (st : Registry) (chainIdFilter : Option String) :
    List MonitoredItem :=
  (mapValues st).filter fun it =>
    match chainIdFilter with
    | none => true
    | some c => it.chainId = c

/-- Per-item fetch of the activity feed: tokens use
`getTokenContractActivity` with limit `floor(limit / count) + 10`, every
other kind uses `getAggregatedWalletActivity` with limit
`floor(limit / count) + 5` (`count` is the number of filtered items); each
returned activity is annotated with its monitoring context. -/
def feedItemActivities (u : Upstream) (count limit : Nat) (it : MonitoredItem) :
    List FeedEntry :=
  let acts :=
    if it.kind = "token" then getTokenContractActivity u it.address (limit / count + 10)
    else getAggregatedWalletActivity u it.address (limit / count + 5)
  acts.map fun a => ⟨a, it.address, it.kind, it.chainId, it.threshold, it.riskLevel⟩

/-- `GET /activity-feed`: filter by the optional `chainId`, return an empty
feed when no entities match, otherwise fetch per item, flatten, sort newest
first and `slice(0, limit)`. -/
def activityFeed (u : Upstream) (st : Registry) (chainIdFilter : Option String)
    (limit : Nat) : List FeedEntry :=
  let items := feedFilteredItems st chainIdFilter
  if items.length = 0 then []
  else
    (List.insertionSort feedNewestFirst
      (items.map (feedItemActivities u items.length limit)).flatten).take limit

/-! ## Helper lemmas about the fallback rule chain -/

lemma volumeCheck_anomalies_append (w : WalletData) (s : RState) :
    ∃ t, (volumeCheck w s).anomalies = s.anomalies ++ t := by
  unfold volumeCheck
  split_ifs
  · exact ⟨["large_volume_spike"], rfl⟩
  · exact ⟨["elevated_volume"], rfl⟩
  · exact ⟨["elevated_volume"], rfl⟩
  · exact ⟨[], by simp⟩

lemma failureCheck_anomalies_append (w : WalletData) (s : RState) :
    ∃ t, (failureCheck w s).anomalies = s.anomalies ++ t := by
  unfold failureCheck
  split_ifs
  · exact ⟨["high_failure_rate"], rfl⟩
  · exact ⟨["high_failure_rate"], rfl⟩
  · exact ⟨[], by simp⟩

lemma tokenActivityCheck_anomalies_append (w : WalletData) (s : RState) :
    ∃ t, (tokenActivityCheck w s).anomalies = s.anomalies ++ t := by
  unfold tokenActivityCheck
  split_ifs
  · exact ⟨["high_token_activity"], rfl⟩
  · exact ⟨["high_token_activity"], rfl⟩
  · exact ⟨[], by simp⟩

lemma highRiskFinalize_anomalies (s : RState) :
    (highRiskFinalize s).anomalies = s.anomalies := by
  unfold highRiskFinalize; split_ifs <;> rfl

lemma highRiskFinalize_riskLevel (s : RState) :
    (highRiskFinalize s).riskLevel = s.riskLevel := by
  unfold highRiskFinalize; split_ifs <;> rfl

lemma highRiskFinalize_isUnusual_of_high (s : RState) (h : s.riskLevel = .high) :
    (highRiskFinalize s).isUnusual = true := by
  unfold highRiskFinalize
  rw [if_pos h]

lemma volumeCheck_high (w : WalletData) (s : RState) (h : s.riskLevel = .high) :
    (volumeCheck w s).riskLevel = .high := by
  unfold volumeCheck; split_ifs <;> simp_all

lemma failureCheck_keep (w : WalletData) (s : RState) (h : s.riskLevel ≠ .low) :
    (failureCheck w s).riskLevel = s.riskLevel := by
  unfold failureCheck; split_ifs <;> simp_all

lemma tokenActivityCheck_keep (w : WalletData) (s : RState) (h : s.riskLevel ≠ .low) :
    (tokenActivityCheck w s).riskLevel = s.riskLevel := by
  unfold tokenActivityCheck; split_ifs <;> simp_all

lemma volumeCheck_rank (w : WalletData) (s : RState) (h : s.riskLevel ≠ .critical) :
    levelRank s.riskLevel ≤ levelRank (volumeCheck w s).riskLevel := by
  rcases s with ⟨l, u, a⟩
  cases l <;> unfold volumeCheck <;> split_ifs <;> simp_all [levelRank]

lemma failureCheck_rank (w : WalletData) (s : RState) :
    levelRank s.riskLevel ≤ levelRank (failureCheck w s).riskLevel := by
  rcases s with ⟨l, u, a⟩
  cases l <;> unfold failureCheck <;> split_ifs <;> simp_all [levelRank]

lemma tokenActivityCheck_rank (w : WalletData) (s : RState) :
    levelRank s.riskLevel ≤ levelRank (tokenActivityCheck w s).riskLevel := by
  rcases s with ⟨l, u, a⟩
  cases l <;> unfold tokenActivityCheck <;> split_ifs <;> simp_all [levelRank]

lemma frequencyCheck_ne_critical (w : WalletData) :
    (frequencyCheck w).riskLevel ≠ .critical := by
  unfold frequencyCheck
  split_ifs <;> simp [initialRState]

lemma volumeCheck_ne_critical (w : WalletData) (s : RState) (h : s.riskLevel ≠ .critical) :
    (volumeCheck w s).riskLevel ≠ .critical := by
  rcases s with ⟨l, u, a⟩
  cases l <;> unfold volumeCheck <;> split_ifs <;> simp_all

lemma failureCheck_ne_critical (w : WalletData) (s : RState) (h : s.riskLevel ≠ .critical) :
    (failureCheck w s).riskLevel ≠ .critical := by
  rcases s with ⟨l, u, a⟩
  cases l <;> unfold failureCheck <;> split_ifs <;> simp_all

lemma tokenActivityCheck_ne_critical (w : WalletData) (s : RState) (h : s.riskLevel ≠ .critical) :
    (tokenActivityCheck w s).riskLevel ≠ .critical := by
  rcases s with ⟨l, u, a⟩
  cases l <;> unfold tokenActivityCheck <;> split_ifs <;> simp_all

lemma highRiskFinalize_ne_critical (s : RState) (h : s.riskLevel ≠ .critical) :
    (highRiskFinalize s).riskLevel ≠ .critical := by
  unfold highRiskFinalize; split_ifs <;> simp_all

lemma frequencyCheck_invUH (w : WalletData) :
    (frequencyCheck w).isUnusual = true → (frequencyCheck w).riskLevel = .high := by
  unfold frequencyCheck
  split_ifs <;> simp [initialRState]

lemma volumeCheck_invUH (w : WalletData) (s : RState)
    (h : s.isUnusual = true → s.riskLevel = .high) :
    (volumeCheck w s).isUnusual = true → (volumeCheck w s).riskLevel = .high := by
  rcases s with ⟨l, u, a⟩
  cases l <;> unfold volumeCheck <;> split_ifs <;> simp_all

lemma failureCheck_invUH (w : WalletData) (s : RState)
    (h : s.isUnusual = true → s.riskLevel = .high) :
    (failureCheck w s).isUnusual = true → (failureCheck w s).riskLevel = .high := by
  rcases s with ⟨l, u, a⟩
  cases l <;> unfold failureCheck <;> split_ifs <;> simp_all

lemma tokenActivityCheck_invUH (w : WalletData) (s : RState)
    (h : s.isUnusual = true → s.riskLevel = .high) :
    (tokenActivityCheck w s).isUnusual = true → (tokenActivityCheck w s).riskLevel = .high := by
  rcases s with ⟨l, u, a⟩
  cases l <;> unfold tokenActivityCheck <;> split_ifs <;> simp_all

lemma highRiskFinalize_invUH (s : RState)
    (h : s.isUnusual = true → s.riskLevel = .high) :
    (highRiskFinalize s).isUnusual = true → (highRiskFinalize s).riskLevel = .high := by
  unfold highRiskFinalize; split_ifs <;> simp_all

lemma one_le_levelRank_raise (l : RiskLevel) :
    1 ≤ levelRank (if l = .low then .medium else l) := by
  cases l <;> simp [levelRank]

/-- Anomalies present after the volume check survive to the final verdict. -/
lemma mem_anomalies_of_volume (w : WalletData) (m : String)
    (hm : m ∈ (volumeCheck w (frequencyCheck w)).anomalies) :
    m ∈ (generateFallbackAnalysis w).anomalies := by
  obtain ⟨t1, h1⟩ := failureCheck_anomalies_append w (volumeCheck w (frequencyCheck w))
  obtain ⟨t2, h2⟩ :=
    tokenActivityCheck_anomalies_append w (failureCheck w (volumeCheck w (frequencyCheck w)))
  have h3 := highRiskFinalize_anomalies
    (tokenActivityCheck w (failureCheck w (volumeCheck w (frequencyCheck w))))
  have hc : m ∈ (fallbackChain w).anomalies := by
    unfold fallbackChain
    rw [h3, h2, h1]
    exact List.mem_append_left _ (List.mem_append_left _ hm)
  exact hc

/-- Anomalies present after the frequency check survive to the final
verdict. -/
lemma mem_anomalies_of_freq (w : WalletData) (m : String)
    (hm : m ∈ (frequencyCheck w).anomalies) :
    m ∈ (generateFallbackAnalysis w).anomalies := by
  obtain ⟨t0, h0⟩ := volumeCheck_anomalies_append w (frequencyCheck w)
  exact mem_anomalies_of_volume w m (by rw [h0]; exact List.mem_append_left _ hm)

/-- Anomalies present after the failure-rate check survive to the final
verdict. -/
lemma mem_anomalies_of_failure (w : WalletData) (m : String)
    (hm : m ∈ (failureCheck w (volumeCheck w (frequencyCheck w))).anomalies) :
    m ∈ (generateFallbackAnalysis w).anomalies := by
  obtain ⟨t2, h2⟩ :=
    tokenActivityCheck_anomalies_append w (failureCheck w (volumeCheck w (frequencyCheck w)))
  have h3 := highRiskFinalize_anomalies
    (tokenActivityCheck w (failureCheck w (volumeCheck w (frequencyCheck w))))
  have hc : m ∈ (fallbackChain w).anomalies := by
    unfold fallbackChain
    rw [h3, h2]
    exact List.mem_append_left _ hm
  exact hc

/-- Once the state after the volume check carries risk level `high`, the
final verdict is `high` and flagged unusual. -/
lemma final_high_of_volume_high (w : WalletData)
    (h : (volumeCheck w (frequencyCheck w)).riskLevel = .high) :
    (generateFallbackAnalysis w).riskLevel = .high ∧
      (generateFallbackAnalysis w).isUnusual = true := by
  have hc : (failureCheck w (volumeCheck w (frequencyCheck w))).riskLevel = .high := by
    rw [failureCheck_keep w _ (by rw [h]; intro hx; cases hx)]; exact h
  have hd :
      (tokenActivityCheck w (failureCheck w (volumeCheck w (frequencyCheck w)))).riskLevel
        = .high := by
    rw [tokenActivityCheck_keep w _ (by rw [hc]; intro hx; cases hx)]; exact hc
  have he : (fallbackChain w).riskLevel = .high := by
    unfold fallbackChain
    rw [highRiskFinalize_riskLevel]; exact hd
  have hu : (fallbackChain w).isUnusual = true := by
    unfold fallbackChain
    exact highRiskFinalize_isUnusual_of_high _ hd
  exact ⟨he, hu⟩

/-! ## Claims about the fallback classifier -/

/-- Claim C6 (amended): in `generateFallbackAnalysis`, a daily transaction
count greater than 100 yields risk level high, `isUnusual = true` and the
anomaly `high_frequency_transactions`; a count greater than 50 (but not
greater than 100) yields the anomaly `moderate_frequency_transactions` and
a final risk level of medium unless the later volume rule escalates to high
(converted daily volume above 100); on the input `dailyTxCount = 150`,
`dailyVolumeEth = 5` the verdict is high, unusual, with
`high_frequency_transactions` among the anomalies. -/
theorem fallback_frequency_rule (w : WalletData) :
    (w.dailyTxCount > 100 →
      (generateFallbackAnalysis w).riskLevel = RiskLevel.high ∧
      (generateFallbackAnalysis w).isUnusual = true ∧
      "high_frequency_transactions" ∈ (generateFallbackAnalysis w).anomalies) ∧
    (50 < w.dailyTxCount → w.dailyTxCount ≤ 100 →
      "moderate_frequency_transactions" ∈ (generateFallbackAnalysis w).anomalies ∧
      (dailyVolumeEth w ≤ 100 →
        (generateFallbackAnalysis w).riskLevel = RiskLevel.medium) ∧
      (dailyVolumeEth w > 100 →
        (generateFallbackAnalysis w).riskLevel = RiskLevel.high)) ∧
    ((generateFallbackAnalysis ⟨150, 5 * 10 ^ 18, [], [], 150⟩).riskLevel = RiskLevel.high ∧
      (generateFallbackAnalysis ⟨150, 5 * 10 ^ 18, [], [], 150⟩).isUnusual = true ∧
      "high_frequency_transactions" ∈
        (generateFallbackAnalysis ⟨150, 5 * 10 ^ 18, [], [], 150⟩).anomalies) := by
  refine ⟨fun h => ?_, fun h1 h2 => ?_, ?_⟩
  · have ha : frequencyCheck w = ⟨.high, true, ["high_frequency_transactions"]⟩ := by
      unfold frequencyCheck; rw [if_pos h]
    have hb : (volumeCheck w (frequencyCheck w)).riskLevel = .high :=
      volumeCheck_high w _ (by rw [ha])
    obtain ⟨he, hu⟩ := final_high_of_volume_high w hb
    refine ⟨he, hu, ?_⟩
    apply mem_anomalies_of_freq
    rw [ha]; simp
  · have hne : ¬ w.dailyTxCount > 100 := by omega
    have ha : frequencyCheck w = ⟨.medium, false, ["moderate_frequency_transactions"]⟩ := by
      unfold frequencyCheck; rw [if_neg hne, if_pos h1]
    refine ⟨?_, fun hv => ?_, fun hv => ?_⟩
    · apply mem_anomalies_of_freq; rw [ha]; simp
    · have hb : (volumeCheck w (frequencyCheck w)).riskLevel = .medium := by
        unfold volumeCheck
        rw [if_neg (not_lt.mpr hv)]
        split_ifs <;> simp [ha]
      have hc := failureCheck_keep w (volumeCheck w (frequencyCheck w))
        (by rw [hb]; intro hx; cases hx)
      have hd := tokenActivityCheck_keep w
        (failureCheck w (volumeCheck w (frequencyCheck w)))
        (by rw [hc, hb]; intro hx; cases hx)
      have he : (fallbackChain w).riskLevel = .medium := by
        unfold fallbackChain
        rw [highRiskFinalize_riskLevel, hd, hc, hb]
      exact he
    · have hb : (volumeCheck w (frequencyCheck w)).riskLevel = .high := by
        unfold volumeCheck; rw [if_pos hv]
      exact (final_high_of_volume_high w hb).1
  · norm_num [generateFallbackAnalysis, fallbackChain, frequencyCheck, volumeCheck,
      failureCheck, tokenActivityCheck, highRiskFinalize, dailyVolumeEth, failedTxCount]

/-- Claim C6 (counterexample to the original wording): on the input
`dailyTxCount = 60` with `dailyVolume = 150e18` wei, the count lies in the
band (50, 100] but the final risk level is `high`, not `medium`, because
the volume rule escalates after the frequency rule. -/
theorem fallback_frequency_rule_counterexample :
    50 < (⟨60, 150 * 10 ^ 18, [], [], 60⟩ : WalletData).dailyTxCount ∧
    (⟨60, 150 * 10 ^ 18, [], [], 60⟩ : WalletData).dailyTxCount ≤ 100 ∧
    (generateFallbackAnalysis ⟨60, 150 * 10 ^ 18, [], [], 60⟩).riskLevel ≠ RiskLevel.medium ∧
    (generateFallbackAnalysis ⟨60, 150 * 10 ^ 18, [], [], 60⟩).riskLevel = RiskLevel.high := by
  norm_num [generateFallbackAnalysis, fallbackChain, frequencyCheck, volumeCheck,
    failureCheck, tokenActivityCheck, highRiskFinalize, dailyVolumeEth, failedTxCount]
  decide

/-- Claim C6 (witness): the amended rule applied at `dailyTxCount = 150,
dailyVolumeEth = 5` and at `dailyTxCount = 60, dailyVolume = 0`. -/
theorem fallback_frequency_rule_witness :
    (generateFallbackAnalysis ⟨150, 5 * 10 ^ 18, [], [], 150⟩).isUnusual = true ∧
    "moderate_frequency_transactions" ∈
      (generateFallbackAnalysis ⟨60, 0, [], [], 60⟩).anomalies ∧
    (generateFallbackAnalysis ⟨60, 0, [], [], 60⟩).riskLevel = RiskLevel.medium := by
  refine ⟨((fallback_frequency_rule ⟨150, 5 * 10 ^ 18, [], [], 150⟩).1 (by norm_num)).2.1,
    ?_, ?_⟩
  · exact ((fallback_frequency_rule ⟨60, 0, [], [], 60⟩).2.1 (by norm_num) (by norm_num)).1
  · exact ((fallback_frequency_rule ⟨60, 0, [], [], 60⟩).2.1 (by norm_num)
      (by norm_num)).2.1 (by norm_num [dailyVolumeEth])

/-- Claim C7: in `generateFallbackAnalysis`, the daily volume is converted
by dividing by `1e18`; a converted volume above 100 yields risk level high,
`isUnusual = true` and the anomaly `large_volume_spike`; a converted volume
above 10 (but at most 100) raises the risk level to at least medium with the
anomaly `elevated_volume`; on the input `dailyTxCount = 5`,
`dailyVolumeEth = 150` the verdict is high, unusual, with
`large_volume_spike` among the anomalies. -/
theorem fallback_volume_rule (w : WalletData) :
    dailyVolumeEth w = w.dailyVolume / 10 ^ 18 ∧
    (dailyVolumeEth w > 100 →
      (generateFallbackAnalysis w).riskLevel = RiskLevel.high ∧
      (generateFallbackAnalysis w).isUnusual = true ∧
      "large_volume_spike" ∈ (generateFallbackAnalysis w).anomalies) ∧
    (dailyVolumeEth w > 10 → dailyVolumeEth w ≤ 100 →
      1 ≤ levelRank (generateFallbackAnalysis w).riskLevel ∧
      "elevated_volume" ∈ (generateFallbackAnalysis w).anomalies) ∧
    ((generateFallbackAnalysis ⟨5, 150 * 10 ^ 18, [], [], 5⟩).riskLevel = RiskLevel.high ∧
      (generateFallbackAnalysis ⟨5, 150 * 10 ^ 18, [], [], 5⟩).isUnusual = true ∧
      "large_volume_spike" ∈
        (generateFallbackAnalysis ⟨5, 150 * 10 ^ 18, [], [], 5⟩).anomalies) := by
  refine ⟨rfl, fun hv => ?_, fun hv1 hv2 => ?_, ?_⟩
  · have hb : (volumeCheck w (frequencyCheck w)).riskLevel = .high := by
      unfold volumeCheck; rw [if_pos hv]
    obtain ⟨he, hu⟩ := final_high_of_volume_high w hb
    refine ⟨he, hu, ?_⟩
    apply mem_anomalies_of_volume
    unfold volumeCheck; rw [if_pos hv]; simp
  · have hb : (volumeCheck w (frequencyCheck w)).riskLevel =
        (if (frequencyCheck w).riskLevel = .low then .medium
          else (frequencyCheck w).riskLevel) := by
      unfold volumeCheck; rw [if_neg (not_lt.mpr hv2), if_pos hv1]
    have h1b : 1 ≤ levelRank (volumeCheck w (frequencyCheck w)).riskLevel := by
      rw [hb]; exact one_le_levelRank_raise _
    constructor
    · have hfin : 1 ≤ levelRank (fallbackChain w).riskLevel := by
        unfold fallbackChain
        rw [highRiskFinalize_riskLevel]
        exact le_trans (le_trans h1b (failureCheck_rank w _)) (tokenActivityCheck_rank w _)
      exact hfin
    · apply mem_anomalies_of_volume
      unfold volumeCheck; rw [if_neg (not_lt.mpr hv2), if_pos hv1]; simp
  · norm_num [generateFallbackAnalysis, fallbackChain, frequencyCheck, volumeCheck,
      failureCheck, tokenActivityCheck, highRiskFinalize, dailyVolumeEth, failedTxCount]

/-- Claim C7 (witness): the volume rule applied at `dailyVolumeEth = 150`
(spike) and `dailyVolumeEth = 50` (elevated). -/
theorem fallback_volume_rule_witness :
    (generateFallbackAnalysis ⟨5, 150 * 10 ^ 18, [], [], 5⟩).riskLevel = RiskLevel.high ∧
    1 ≤ levelRank (generateFallbackAnalysis ⟨5, 50 * 10 ^ 18, [], [], 5⟩).riskLevel ∧
    "elevated_volume" ∈ (generateFallbackAnalysis ⟨5, 50 * 10 ^ 18, [], [], 5⟩).anomalies := by
  refine ⟨((fallback_volume_rule ⟨5, 150 * 10 ^ 18, [], [], 5⟩).2.1
    (by norm_num [dailyVolumeEth])).1, ?_⟩
  exact (fallback_volume_rule ⟨5, 50 * 10 ^ 18, [], [], 5⟩).2.2.1
    (by norm_num [dailyVolumeEth]) (by norm_num [dailyVolumeEth])

/-- Claim C8: within one fallback evaluation the risk level only moves
upward along low → medium → high at every step of the rule chain, anomalies
only accumulate (each step appends, nothing is removed), and a final risk
level of high implies `isUnusual = true` in the returned verdict. -/
theorem fallback_monotone_escalation (w : WalletData) :
    levelRank initialRState.riskLevel ≤ levelRank (frequencyCheck w).riskLevel ∧
    levelRank (frequencyCheck w).riskLevel ≤
      levelRank (volumeCheck w (frequencyCheck w)).riskLevel ∧
    levelRank (volumeCheck w (frequencyCheck w)).riskLevel ≤
      levelRank (failureCheck w (volumeCheck w (frequencyCheck w))).riskLevel ∧
    levelRank (failureCheck w (volumeCheck w (frequencyCheck w))).riskLevel ≤
      levelRank
        (tokenActivityCheck w (failureCheck w (volumeCheck w (frequencyCheck w)))).riskLevel ∧
    levelRank
        (tokenActivityCheck w (failureCheck w (volumeCheck w (frequencyCheck w)))).riskLevel ≤
      levelRank (fallbackChain w).riskLevel ∧
    (∃ t, (frequencyCheck w).anomalies = initialRState.anomalies ++ t) ∧
    (∃ t, (volumeCheck w (frequencyCheck w)).anomalies = (frequencyCheck w).anomalies ++ t) ∧
    (∃ t, (failureCheck w (volumeCheck w (frequencyCheck w))).anomalies =
      (volumeCheck w (frequencyCheck w)).anomalies ++ t) ∧
    (∃ t, (tokenActivityCheck w (failureCheck w (volumeCheck w (frequencyCheck w)))).anomalies =
      (failureCheck w (volumeCheck w (frequencyCheck w))).anomalies ++ t) ∧
    (∃ t, (fallbackChain w).anomalies =
      (tokenActivityCheck w (failureCheck w (volumeCheck w (frequencyCheck w)))).anomalies ++ t) ∧
    ((generateFallbackAnalysis w).riskLevel = RiskLevel.high →
      (generateFallbackAnalysis w).isUnusual = true) ∧
    (generateFallbackAnalysis w).riskLevel = (fallbackChain w).riskLevel ∧
    (generateFallbackAnalysis w).anomalies = (fallbackChain w).anomalies := by
  refine ⟨Nat.zero_le _,
    volumeCheck_rank w _ (frequencyCheck_ne_critical w),
    failureCheck_rank w _,
    tokenActivityCheck_rank w _,
    ?_, ⟨(frequencyCheck w).anomalies, by simp [initialRState]⟩,
    volumeCheck_anomalies_append w _,
    failureCheck_anomalies_append w _,
    tokenActivityCheck_anomalies_append w _,
    ⟨[], by unfold fallbackChain; rw [highRiskFinalize_anomalies]; simp⟩,
    fun h => ?_, rfl, rfl⟩
  · have hfin : (fallbackChain w).riskLevel =
        (tokenActivityCheck w (failureCheck w (volumeCheck w (frequencyCheck w)))).riskLevel := by
      unfold fallbackChain
      rw [highRiskFinalize_riskLevel]
    rw [hfin]
  · have hd :
        (tokenActivityCheck w (failureCheck w (volumeCheck w (frequencyCheck w)))).riskLevel
          = .high := by
      have h2 := highRiskFinalize_riskLevel
        (tokenActivityCheck w (failureCheck w (volumeCheck w (frequencyCheck w))))
      have h3 : (fallbackChain w).riskLevel = .high := h
      unfold fallbackChain at h3
      rw [h2] at h3
      exact h3
    exact highRiskFinalize_isUnusual_of_high _ hd

/-- Claim C8 (witness): the monotone-escalation theorem applied at
`dailyTxCount = 150`, with the high-implies-unusual implication discharged
there. -/
theorem fallback_monotone_escalation_witness :
    (generateFallbackAnalysis ⟨150, 0, [], [], 150⟩).isUnusual = true := by
  have hthm := fallback_monotone_escalation ⟨150, 0, [], [], 150⟩
  exact hthm.2.2.2.2.2.2.2.2.2.2.1
    (by norm_num [generateFallbackAnalysis, fallbackChain, frequencyCheck, volumeCheck,
      failureCheck, tokenActivityCheck, highRiskFinalize, dailyVolumeEth, failedTxCount])

/-- Claim C9: when the number of failed recent transactions exceeds 30% of
the daily transaction count, the fallback verdict's risk level is at least
medium and `high_failure_rate` is among the anomalies. -/
theorem fallback_failure_rate_rule (w : WalletData)
    (h : (failedTxCount w : ℚ) > (w.dailyTxCount : ℚ) * (3 / 10)) :
    1 ≤ levelRank (generateFallbackAnalysis w).riskLevel ∧
    "high_failure_rate" ∈ (generateFallbackAnalysis w).anomalies := by
  have hc : failureCheck w (volumeCheck w (frequencyCheck w)) =
      ⟨if (volumeCheck w (frequencyCheck w)).riskLevel = .low then .medium
          else (volumeCheck w (frequencyCheck w)).riskLevel,
        (volumeCheck w (frequencyCheck w)).isUnusual,
        (volumeCheck w (frequencyCheck w)).anomalies ++ ["high_failure_rate"]⟩ := by
    unfold failureCheck; rw [if_pos h]
  constructor
  · have h1c : 1 ≤ levelRank (failureCheck w (volumeCheck w (frequencyCheck w))).riskLevel := by
      rw [hc]; exact one_le_levelRank_raise _
    have hfin : 1 ≤ levelRank (fallbackChain w).riskLevel := by
      unfold fallbackChain
      rw [highRiskFinalize_riskLevel]
      exact le_trans h1c (tokenActivityCheck_rank w _)
    exact hfin
  · apply mem_anomalies_of_failure
    rw [hc]; simp

/-- Claim C9 (witness): two failed transactions against a daily count of
two (ratio 100% > 30%). -/
theorem fallback_failure_rate_rule_witness :
    1 ≤ levelRank (generateFallbackAnalysis ⟨2, 0, [⟨true⟩, ⟨true⟩], [], 2⟩).riskLevel ∧
    "high_failure_rate" ∈
      (generateFallbackAnalysis ⟨2, 0, [⟨true⟩, ⟨true⟩], [], 2⟩).anomalies :=
  fallback_failure_rate_rule _ (by norm_num [failedTxCount, List.filter])

/-- Claim C10: the fallback verdict is flagged unusual exactly when its
final risk level is high, and the fallback never returns risk level
critical. -/
theorem fallback_unusual_iff_high (w : WalletData) :
    ((generateFallbackAnalysis w).isUnusual = true ↔
      (generateFallbackAnalysis w).riskLevel = RiskLevel.high) ∧
    (generateFallbackAnalysis w).riskLevel ≠ RiskLevel.critical := by
  have hinv : (fallbackChain w).isUnusual = true → (fallbackChain w).riskLevel = .high := by
    unfold fallbackChain
    exact highRiskFinalize_invUH _ (tokenActivityCheck_invUH w _ (failureCheck_invUH w _
      (volumeCheck_invUH w _ (frequencyCheck_invUH w))))
  have hnc : (fallbackChain w).riskLevel ≠ .critical := by
    unfold fallbackChain
    exact highRiskFinalize_ne_critical _ (tokenActivityCheck_ne_critical w _
      (failureCheck_ne_critical w _ (volumeCheck_ne_critical w _
        (frequencyCheck_ne_critical w))))
  refine ⟨⟨fun h => hinv h, fun h => ?_⟩, hnc⟩
  have hd :
      (tokenActivityCheck w (failureCheck w (volumeCheck w (frequencyCheck w)))).riskLevel
        = .high := by
    have h2 := highRiskFinalize_riskLevel
      (tokenActivityCheck w (failureCheck w (volumeCheck w (frequencyCheck w))))
    have h3 : (fallbackChain w).riskLevel = .high := h
    unfold fallbackChain at h3
    rw [h2] at h3
    exact h3
  exact highRiskFinalize_isUnusual_of_high _ hd

/-- Claim C10 (witness): the equivalence applied at `dailyTxCount = 150`,
deriving the high risk level from the unusual flag. -/
theorem fallback_unusual_iff_high_witness :
    (generateFallbackAnalysis ⟨150, 0, [], [], 150⟩).riskLevel = RiskLevel.high := by
  have hthm := fallback_unusual_iff_high ⟨150, 0, [], [], 150⟩
  exact hthm.1.mp
    (by norm_num [generateFallbackAnalysis, fallbackChain, frequencyCheck, volumeCheck,
      failureCheck, tokenActivityCheck, highRiskFinalize, dailyVolumeEth, failedTxCount])

/-! ## Helper lemmas about the monitored-wallet map -/

lemma mapValues_cons (k : String) (v : MonitoredItem) (st : Registry) :
    mapValues ((k, v) :: st) = v :: mapValues st := rfl

lemma mapKeys_cons (k : String) (v : MonitoredItem) (st : Registry) :
    mapKeys ((k, v) :: st) = k :: mapKeys st := rfl

lemma wfRegistry_tail {k : String} {v : MonitoredItem} {st : Registry}
    (h : wfRegistry ((k, v) :: st)) : wfRegistry st := by
  obtain ⟨h1, h2⟩ := h
  have h1' : (k :: mapKeys st).Nodup := h1
  exact ⟨(List.nodup_cons.mp h1').2, fun p hp => h2 p (List.mem_cons_of_mem _ hp)⟩

lemma countP_mapValues_eq_zero {k : String} {st : Registry}
    (hk : k ∉ mapKeys st) (hwf : ∀ p ∈ st, (p.2).address = p.1) :
    (mapValues st).countP (fun e => e.address == k) = 0 := by
  rw [List.countP_eq_zero]
  intro e he
  obtain ⟨p, hp, hpe⟩ := List.mem_map.mp he
  subst hpe
  have h1 := hwf p hp
  have h2 : p.1 ∈ mapKeys st := List.mem_map.mpr ⟨p, hp, rfl⟩
  simp only [h1, beq_iff_eq]
  intro hEq
  exact hk (hEq ▸ h2)

lemma countP_mapValues_mapSet (k : String) (v : MonitoredItem) (st : Registry)
    (hwf : wfRegistry st) (hv : v.address = k) :
    (mapValues (mapSet k v st)).countP (fun e => e.address == k) = 1 := by
  induction st with
  | nil => simp [mapSet, mapValues, hv]
  | cons hd tl ih =>
    rcases hd with ⟨k', v'⟩
    by_cases hkk : k' = k
    · have hk : k ∉ mapKeys tl := by
        have h1 : (k' :: mapKeys tl).Nodup := hwf.1
        rw [hkk] at h1
        exact (List.nodup_cons.mp h1).1
      rw [mapSet, if_pos hkk, mapValues_cons, List.countP_cons,
        countP_mapValues_eq_zero hk (wfRegistry_tail hwf).2]
      simp [hv]
    · have h1 : v'.address = k' := hwf.2 (k', v') (by simp)
      rw [mapSet, if_neg hkk, mapValues_cons, List.countP_cons, ih (wfRegistry_tail hwf)]
      simp [h1, hkk]

lemma mem_mapSet_elim {p : String × MonitoredItem} {k : String} {v : MonitoredItem}
    {st : Registry} (h : p ∈ mapSet k v st) : p = (k, v) ∨ p ∈ st := by
  induction st with
  | nil => simpa [mapSet] using h
  | cons hd tl ih =>
    rcases hd with ⟨k', v'⟩
    by_cases hkk : k' = k
    · rw [mapSet, if_pos hkk] at h
      rcases List.mem_cons.mp h with h | h
      · exact Or.inl h
      · exact Or.inr (List.mem_cons_of_mem _ h)
    · rw [mapSet, if_neg hkk] at h
      rcases List.mem_cons.mp h with h | h
      · exact Or.inr (by simp [h])
      · rcases ih h with h2 | h2
        · exact Or.inl h2
        · exact Or.inr (List.mem_cons_of_mem _ h2)

lemma mapKeys_mapSet (k : String) (v : MonitoredItem) (st : Registry) :
    mapKeys (mapSet k v st) =
      if k ∈ mapKeys st then mapKeys st else mapKeys st ++ [k] := by
  induction st with
  | nil => simp [mapSet, mapKeys]
  | cons hd tl ih =>
    rcases hd with ⟨k', v'⟩
    by_cases hkk : k' = k
    · subst hkk
      rw [mapSet, if_pos rfl, mapKeys_cons, mapKeys_cons]
      simp
    · have hne : ¬ k = k' := fun he => hkk he.symm
      rw [mapSet, if_neg hkk, mapKeys_cons, mapKeys_cons, ih]
      by_cases hmem : k ∈ mapKeys tl
      · simp [hmem, hne]
      · simp [hmem, hne]

lemma wfRegistry_mapSet {k : String} {v : MonitoredItem} {st : Registry}
    (hwf : wfRegistry st) (hv : v.address = k) : wfRegistry (mapSet k v st) := by
  obtain ⟨h1, h2⟩ := hwf
  constructor
  · rw [mapKeys_mapSet]
    split_ifs with hmem
    · exact h1
    · rw [List.nodup_append]
      refine ⟨h1, by simp, ?_⟩
      intro a ha hb
      simp only [List.mem_singleton] at hb
      subst hb
      exact hmem ha
  · intro p hp
    rcases mem_mapSet_elim hp with h | h
    · rw [h]; exact hv
    · exact h2 p h

lemma mem_mapKeys_mapSet (k : String) (v : MonitoredItem) (st : Registry) :
    k ∈ mapKeys (mapSet k v st) := by
  rw [mapKeys_mapSet]
  split_ifs with h
  · exact h
  · simp

lemma length_mapSet_of_mem {k : String} (v : MonitoredItem) {st : Registry}
    (h : k ∈ mapKeys st) : (mapSet k v st).length = st.length := by
  induction st with
  | nil => simp [mapKeys] at h
  | cons hd tl ih =>
    rcases hd with ⟨k', v'⟩
    by_cases hkk : k' = k
    · simp [mapSet, hkk]
    · have h' : k ∈ mapKeys tl := by
        rcases List.mem_cons.mp h with h0 | h0
        · exact absurd h0.symm hkk
        · exact h0
      simp [mapSet, hkk, ih h']

lemma mapDelete_of_mapGet_none {k : String} {st : Registry}
    (h : mapGet k st = none) : mapDelete k st = (false, st) := by
  induction st with
  | nil => rfl
  | cons hd tl ih =>
    rcases hd with ⟨k', v'⟩
    by_cases hkk : k' = k
    · rw [mapGet, if_pos hkk] at h
      cases h
    · rw [mapGet, if_neg hkk] at h
      rw [mapDelete, if_neg hkk, ih h]

lemma mapDelete_mapSet (k : String) (v : MonitoredItem) (st : Registry)
    (hnd : (mapKeys st).Nodup) :
    (mapDelete k (mapSet k v st)).1 = true ∧
    ∀ p ∈ (mapDelete k (mapSet k v st)).2, p ∈ st ∧ p.1 ≠ k := by
  induction st with
  | nil => simp [mapSet, mapDelete]
  | cons hd tl ih =>
    rcases hd with ⟨k', v'⟩
    by_cases hkk : k' = k
    · subst hkk
      have hk : k' ∉ mapKeys tl := (List.nodup_cons.mp (by exact hnd : (k' :: mapKeys tl).Nodup)).1
      rw [mapSet, if_pos rfl, mapDelete, if_pos rfl]
      refine ⟨rfl, ?_⟩
      intro p hp
      refine ⟨List.mem_cons_of_mem _ hp, ?_⟩
      intro hEq
      exact hk (hEq ▸ List.mem_map.mpr ⟨p, hp, rfl⟩)
    · rw [mapSet, if_neg hkk, mapDelete, if_neg hkk]
      obtain ⟨ih1, ih2⟩ :=
        ih (List.nodup_cons.mp (by exact hnd : (k' :: mapKeys tl).Nodup)).2
      refine ⟨ih1, ?_⟩
      intro p hp
      rcases List.mem_cons.mp hp with h | h
      · exact ⟨by simp [h], by rw [h]; exact hkk⟩
      · obtain ⟨hp1, hp2⟩ := ih2 p h
        exact ⟨List.mem_cons_of_mem _ hp1, hp2⟩

/-! ## Claims about the registry operations -/

/-- Claim C3: `monitor` is an idempotent upsert keyed by the lower-cased
address: for a valid address `A` over a well-formed registry, one
`monitor(A)` call leaves exactly one listed entity whose address equals
`lowercase(A)` (and a well-formed registry), and a repeated `monitor(A)`
call overwrites that entry — again exactly one such entity is listed and
the registry size does not grow. -/
theorem monitor_idempotent_upsert (st : Registry) (A kind1 kind2 : String)
    (th1 th2 : ℤ) (chain1 chain2 : String) (now1 now2 : ℤ)
    (ra1 ra2 : Option RiskLevel)
    (hA : isAddress A = true) (hwf : wfRegistry st) :
    ∃ st1, monitorRegistry st A kind1 th1 chain1 now1 ra1 = some st1 ∧
      (listMonitored st1).countP (fun e => e.address == toLowerCase A) = 1 ∧
      wfRegistry st1 ∧
      ∃ st2, monitorRegistry st1 A kind2 th2 chain2 now2 ra2 = some st2 ∧
        (listMonitored st2).countP (fun e => e.address == toLowerCase A) = 1 ∧
        st2.length = st1.length := by
  have hv1 : (mkMonitoredItem A kind1 th1 chain1 now1 ra1).address = toLowerCase A := rfl
  have hv2 : (mkMonitoredItem A kind2 th2 chain2 now2 ra2).address = toLowerCase A := rfl
  refine ⟨mapSet (toLowerCase A) (mkMonitoredItem A kind1 th1 chain1 now1 ra1) st,
    by rw [monitorRegistry, if_pos hA],
    countP_mapValues_mapSet _ _ _ hwf hv1,
    wfRegistry_mapSet hwf hv1,
    mapSet (toLowerCase A) (mkMonitoredItem A kind2 th2 chain2 now2 ra2)
      (mapSet (toLowerCase A) (mkMonitoredItem A kind1 th1 chain1 now1 ra1) st),
    by rw [monitorRegistry, if_pos hA],
    countP_mapValues_mapSet _ _ _ (wfRegistry_mapSet hwf hv1) hv2,
    length_mapSet_of_mem _ (mem_mapKeys_mapSet _ _ _)⟩

/-- Claim C3 (witness): two monitor calls for the same mixed-case address
on an empty registry. -/
theorem monitor_idempotent_upsert_witness :
    isAddress "0xAbCdEf0123456789aBcDeF0123456789AbCdEf01" = true ∧
    wfRegistry [] ∧
    (∃ st1, monitorRegistry [] "0xAbCdEf0123456789aBcDeF0123456789AbCdEf01"
        "wallet" 1000 "1" 0 none = some st1 ∧
      (listMonitored st1).countP
        (fun e => e.address == toLowerCase "0xAbCdEf0123456789aBcDeF0123456789AbCdEf01") = 1 ∧
      wfRegistry st1 ∧
      ∃ st2, monitorRegistry st1 "0xAbCdEf0123456789aBcDeF0123456789AbCdEf01"
          "token" 2000 "5" 1 (some RiskLevel.high) = some st2 ∧
        (listMonitored st2).countP
          (fun e => e.address == toLowerCase "0xAbCdEf0123456789aBcDeF0123456789AbCdEf01") = 1 ∧
        st2.length = st1.length) :=
  ⟨by decide, ⟨List.nodup_nil, fun p hp => absurd hp (List.not_mem_nil p)⟩,
    monitor_idempotent_upsert [] _ "wallet" "token" 1000 2000 "1" "5" 0 1 none
      (some RiskLevel.high) (by decide)
      ⟨List.nodup_nil, fun p hp => absurd hp (List.not_mem_nil p)⟩⟩

/-- Claim C4: `remove` on an absent address answers not-found (the JS
`delete` returned false, no exception) and leaves the registry unchanged;
`remove` right after `monitor` of the same valid address succeeds, and the
subsequent listing contains no entity with that lower-cased address. -/
theorem remove_semantics (st : Registry) (A : String)
    (hA : isAddress A = true) (hwf : wfRegistry st) :
    (mapGet (toLowerCase A) st = none →
      removeRegistry st A = (RemoveOutcome.notFound, st)) ∧
    (∀ kind th chainId now ra, ∃ st1,
      monitorRegistry st A kind th chainId now ra = some st1 ∧
      ∃ st2, removeRegistry st1 A = (RemoveOutcome.removed, st2) ∧
        ∀ e ∈ listMonitored st2, e.address ≠ toLowerCase A) := by
  constructor
  · intro h
    simp [removeRegistry, hA, mapDelete_of_mapGet_none h]
  · intro kind th chainId now ra
    refine ⟨mapSet (toLowerCase A) (mkMonitoredItem A kind th chainId now ra) st,
      by rw [monitorRegistry, if_pos hA], ?_⟩
    obtain ⟨hd1, hd2⟩ :=
      mapDelete_mapSet (toLowerCase A) (mkMonitoredItem A kind th chainId now ra) st hwf.1
    refine ⟨(mapDelete (toLowerCase A)
        (mapSet (toLowerCase A) (mkMonitoredItem A kind th chainId now ra) st)).2, ?_, ?_⟩
    · simp [removeRegistry, hA, hd1]
    · intro e he
      obtain ⟨p, hp, hpe⟩ := List.mem_map.mp he
      subst hpe
      obtain ⟨hp1, hp2⟩ := hd2 p hp
      rw [hwf.2 p hp1]
      exact hp2

/-- Claim C4 (witness): removing from an empty registry answers not-found;
monitor-then-remove of a concrete address leaves no trace in the listing. -/
theorem remove_semantics_witness :
    removeRegistry [] "0xAbCdEf0123456789aBcDeF0123456789AbCdEf01"
      = (RemoveOutcome.notFound, []) ∧
    (∃ st1, monitorRegistry [] "0xAbCdEf0123456789aBcDeF0123456789AbCdEf01"
        "wallet" 1000 "1" 0 none = some st1 ∧
      ∃ st2, removeRegistry st1 "0xAbCdEf0123456789aBcDeF0123456789AbCdEf01"
          = (RemoveOutcome.removed, st2) ∧
        ∀ e ∈ listMonitored st2,
          e.address ≠ toLowerCase "0xAbCdEf0123456789aBcDeF0123456789AbCdEf01") := by
  have h := remove_semantics [] "0xAbCdEf0123456789aBcDeF0123456789AbCdEf01" (by decide)
    ⟨List.nodup_nil, fun p hp => absurd hp (List.not_mem_nil p)⟩
  exact ⟨h.1 rfl, h.2 "wallet" 1000 "1" 0 none⟩

/-! ## Claims about cold-start loading -/

lemma mapSet_of_not_mem {k : String} (v : MonitoredItem) {st : Registry}
    (h : k ∉ mapKeys st) : mapSet k v st = st ++ [(k, v)] := by
  induction st with
  | nil => rfl
  | cons hd tl ih =>
    rcases hd with ⟨k', v'⟩
    have hkk : ¬ k' = k := fun he => h (by simp [mapKeys, he])
    have h' : k ∉ mapKeys tl := fun hm => h (List.mem_cons_of_mem _ hm)
    rw [mapSet, if_neg hkk, ih h']
    rfl

lemma mapKeys_append (r1 r2 : Registry) :
    mapKeys (r1 ++ r2) = mapKeys r1 ++ mapKeys r2 := List.map_append _ _ _

/-- Folding `set(wallet.address.toLowerCase(), wallet)` over a list whose
lower-cased addresses are fresh and pairwise distinct appends the
corresponding keyed entries in order. -/
lemma loadFold_eq (bs : List MonitoredItem) (acc : Registry)
    (hfresh : ∀ it ∈ bs, toLowerCase it.address ∉ mapKeys acc)
    (hnd : (bs.map (fun it => toLowerCase it.address)).Nodup) :
    bs.foldl (fun m it => mapSet (toLowerCase it.address) it m) acc
      = acc ++ bs.map (fun it => (toLowerCase it.address, it)) := by
  induction bs generalizing acc with
  | nil => simp
  | cons b tl ih =>
    have hnd' : (toLowerCase b.address :: tl.map (fun it => toLowerCase it.address)).Nodup :=
      hnd
    rw [List.foldl_cons, mapSet_of_not_mem b (hfresh b (by simp)), ih]
    · simp
    · intro it hit
      rw [mapKeys_append]
      intro hmem
      rcases List.mem_append.mp hmem with hm | hm
      · exact hfresh it (List.mem_cons_of_mem _ hit) hm
      · have heq : toLowerCase it.address = toLowerCase b.address := by
          simpa [mapKeys] using hm
        exact (List.nodup_cons.mp hnd').1
          (heq ▸ List.mem_map.mpr ⟨it, hit, rfl⟩)
    · exact (List.nodup_cons.mp hnd').2

/-- Claim C2: at cold start the registry first tries the durable store; a
non-empty durable wallet list is loaded keyed by lower-cased address; when
the durable store errors or returns zero entities, the backup file is
loaded instead (recovering exactly the entities stored there, keyed by
their lower-cased addresses); when the backup is also unavailable the
registry comes up empty — the load function is total, so startup never
raises. -/
theorem coldstart_recovery_order (durable : DurableResult)
    (backup : Option (List MonitoredItem)) :
    (∀ ws, durable = Except.ok ws → ws.length > 0 →
      loadWalletsFrom0G [] durable backup
        = ws.foldl (fun m it => mapSet (toLowerCase it.address) it m) []) ∧
    ((durable = Except.error () ∨ durable = Except.ok []) →
      (∀ bs, backup = some bs →
        loadWalletsFrom0G [] durable backup
          = bs.foldl (fun m it => mapSet (toLowerCase it.address) it m) [] ∧
        ((bs.map (fun it => toLowerCase it.address)).Nodup →
          mapValues (loadWalletsFrom0G [] durable backup) = bs ∧
          mapKeys (loadWalletsFrom0G [] durable backup)
            = bs.map (fun it => toLowerCase it.address))) ∧
      (backup = none → loadWalletsFrom0G [] durable backup = [])) := by
  constructor
  · intro ws hws hlen
    subst hws
    rw [loadWalletsFrom0G, if_pos hlen]
  · intro hd
    have hload : ∀ bs, backup = some bs →
        loadWalletsFrom0G [] durable backup
          = bs.foldl (fun m it => mapSet (toLowerCase it.address) it m) [] := by
      intro bs hbs
      subst hbs
      rcases hd with hd | hd <;> subst hd
      · rfl
      · rfl
    refine ⟨fun bs hbs => ⟨hload bs hbs, fun hnd => ?_⟩, fun hbs => ?_⟩
    · have heq := hload bs hbs
      have hfold := loadFold_eq bs []
        (fun it _ hm => absurd hm (List.not_mem_nil _)) hnd
      rw [heq, hfold]
      constructor
      · simp [mapValues, Function.comp_def]
      · simp [mapKeys, Function.comp_def]
    · subst hbs
      rcases hd with hd | hd <;> subst hd
      · rfl
      · rfl

/-- Claim C2 (witness): a failing durable store with a three-entity backup
recovers exactly those three entities; both sources failing yields the
empty registry; a non-empty durable result is preferred. -/
theorem coldstart_recovery_order_witness :
    mapValues (loadWalletsFrom0G [] (Except.error ())
        (some [mkMonitoredItem "0xAAAAAAAAAAAAAAAAAAAAAAAAAAAAAAAAAAAAAAA1" "wallet" 1000 "1" 0 none,
          mkMonitoredItem "0xBBBBBBBBBBBBBBBBBBBBBBBBBBBBBBBBBBBBBBB2" "wallet" 500 "1" 0 none,
          mkMonitoredItem "0xCCCCCCCCCCCCCCCCCCCCCCCCCCCCCCCCCCCCCCC3" "token" 5 "1" 0 none]))
      = [mkMonitoredItem "0xAAAAAAAAAAAAAAAAAAAAAAAAAAAAAAAAAAAAAAA1" "wallet" 1000 "1" 0 none,
          mkMonitoredItem "0xBBBBBBBBBBBBBBBBBBBBBBBBBBBBBBBBBBBBBBB2" "wallet" 500 "1" 0 none,
          mkMonitoredItem "0xCCCCCCCCCCCCCCCCCCCCCCCCCCCCCCCCCCCCCCC3" "token" 5 "1" 0 none] ∧
    loadWalletsFrom0G [] (Except.ok []) none = [] ∧
    loadWalletsFrom0G []
        (Except.ok [mkMonitoredItem "0xAAAAAAAAAAAAAAAAAAAAAAAAAAAAAAAAAAAAAAA1" "wallet" 1000 "1" 0 none])
        none
      = [mkMonitoredItem "0xAAAAAAAAAAAAAAAAAAAAAAAAAAAAAAAAAAAAAAA1" "wallet" 1000 "1" 0 none].foldl
          (fun m it => mapSet (toLowerCase it.address) it m) [] := by
  refine ⟨?_, ?_, ?_⟩
  · exact ((((coldstart_recovery_order (Except.error ()) _).2 (Or.inl rfl)).1 _ rfl).2
      (by decide)).1
  · exact ((coldstart_recovery_order (Except.ok []) none).2 (Or.inr rfl)).2 rfl
  · exact (coldstart_recovery_order _ none).1 _ rfl (by decide)

/-! ## Claim about the persistence round trip -/

/-- Claim C1 (failing-input evaluation): monitoring the address
`0x3f5ce5fbfe3e9af3971dd833d26ba9b5c936f0be` on an empty registry with no
backup file, then removing it, leaves the pre-removal backup snapshot (still
containing the address) untouched — `syncWalletsTo0G` skips persisting an
empty wallet list — so the cold-start reload restores the removed address
instead of excluding it. -/
theorem roundtrip_remove_not_durable :
    ((worldMonitor ⟨[], none⟩ "0x3f5ce5fbfe3e9af3971dd833d26ba9b5c936f0be"
        "wallet" 1000 "1" 0 none).map (fun w1 =>
      ((worldRemove w1 "0x3f5ce5fbfe3e9af3971dd833d26ba9b5c936f0be").1,
        (worldRemove w1 "0x3f5ce5fbfe3e9af3971dd833d26ba9b5c936f0be").2.registry,
        ((worldRemove w1 "0x3f5ce5fbfe3e9af3971dd833d26ba9b5c936f0be").2.backupFile).map
          (fun l => l.map (fun e => e.address)),
        (listMonitored (coldStartReload
          (worldRemove w1 "0x3f5ce5fbfe3e9af3971dd833d26ba9b5c936f0be").2)).map
            (fun e => e.address)))
    = some (RemoveOutcome.removed, [],
        some ["0x3f5ce5fbfe3e9af3971dd833d26ba9b5c936f0be"],
        ["0x3f5ce5fbfe3e9af3971dd833d26ba9b5c936f0be"])) := by
  decide

/-! ## Claim about the aggregated activity feed -/

/-- Claim C5: for a feed request over the monitored registry the result has
at most `limit` records and is globally sorted by timestamp descending, and
each participating entity's per-entity fetch is capped at
`floor(limit / N) + 10` for token entities and `floor(limit / N) + 5` for
all other kinds (`N` the number of participating entities), so the cap is
always within `floor(limit / N)` plus a small constant. -/
theorem activity_feed_bounds (u : Upstream) (st : Registry)
    (chainIdFilter : Option String) (limit : Nat) :
    (activityFeed u st chainIdFilter limit).length ≤ limit ∧
    (activityFeed u st chainIdFilter limit).Pairwise
      (fun a b => b.activity.timestamp ≤ a.activity.timestamp) ∧
    (∀ it ∈ feedFilteredItems st chainIdFilter,
      (feedItemActivities u (feedFilteredItems st chainIdFilter).length limit it).length
        ≤ limit / (feedFilteredItems st chainIdFilter).length + 10 ∧
      (it.kind = "token" →
        (feedItemActivities u (feedFilteredItems st chainIdFilter).length limit it).length
          ≤ limit / (feedFilteredItems st chainIdFilter).length + 10) ∧
      (it.kind ≠ "token" →
        (feedItemActivities u (feedFilteredItems st chainIdFilter).length limit it).length
          ≤ limit / (feedFilteredItems st chainIdFilter).length + 5)) := by
  refine ⟨?_, ?_, ?_⟩
  · rw [activityFeed]
    split_ifs
    · simp
    · exact List.length_take_le _ _
  · rw [activityFeed]
    split_ifs
    · simp
    · exact (List.sorted_insertionSort feedNewestFirst _).sublist (List.take_sublist _ _)
  · intro it hit
    have htok : it.kind = "token" →
        (feedItemActivities u (feedFilteredItems st chainIdFilter).length limit it).length
          ≤ limit / (feedFilteredItems st chainIdFilter).length + 10 := by
      intro hk
      rw [feedItemActivities]
      simp only [if_pos hk, List.length_map]
      exact List.length_take_le _ _
    have hoth : it.kind ≠ "token" →
        (feedItemActivities u (feedFilteredItems st chainIdFilter).length limit it).length
          ≤ limit / (feedFilteredItems st chainIdFilter).length + 5 := by
      intro hk
      rw [feedItemActivities]
      simp only [if_neg hk, List.length_map]
      exact List.length_take_le _ _
    refine ⟨?_, htok, hoth⟩
    by_cases hk : it.kind = "token"
    · exact htok hk
    · exact le_trans (hoth hk) (by omega)

/-- Claim C5 (witness): one monitored wallet, empty upstream streams,
`limit = 50`: the per-entity cap and the feed bounds instantiated. -/
theorem activity_feed_bounds_witness :
    (mkMonitoredItem "0xAAAAAAAAAAAAAAAAAAAAAAAAAAAAAAAAAAAAAAA1" "wallet" 1000 "1" 0 none) ∈
      feedFilteredItems
        [(toLowerCase "0xAAAAAAAAAAAAAAAAAAAAAAAAAAAAAAAAAAAAAAA1",
          mkMonitoredItem "0xAAAAAAAAAAAAAAAAAAAAAAAAAAAAAAAAAAAAAAA1" "wallet" 1000 "1" 0 none)]
        none ∧
    (feedItemActivities ⟨fun _ => [], fun _ => [], fun _ => [], fun _ => [], fun _ => []⟩
        (feedFilteredItems
          [(toLowerCase "0xAAAAAAAAAAAAAAAAAAAAAAAAAAAAAAAAAAAAAAA1",
            mkMonitoredItem "0xAAAAAAAAAAAAAAAAAAAAAAAAAAAAAAAAAAAAAAA1" "wallet" 1000 "1" 0 none)]
          none).length 50
        (mkMonitoredItem "0xAAAAAAAAAAAAAAAAAAAAAAAAAAAAAAAAAAAAAAA1" "wallet" 1000 "1" 0 none)).length
      ≤ 50 / (feedFilteredItems
          [(toLowerCase "0xAAAAAAAAAAAAAAAAAAAAAAAAAAAAAAAAAAAAAAA1",
            mkMonitoredItem "0xAAAAAAAAAAAAAAAAAAAAAAAAAAAAAAAAAAAAAAA1" "wallet" 1000 "1" 0 none)]
          none).length + 5 := by
  have hmem : (mkMonitoredItem "0xAAAAAAAAAAAAAAAAAAAAAAAAAAAAAAAAAAAAAAA1" "wallet" 1000 "1" 0 none) ∈
      feedFilteredItems
        [(toLowerCase "0xAAAAAAAAAAAAAAAAAAAAAAAAAAAAAAAAAAAAAAA1",
          mkMonitoredItem "0xAAAAAAAAAAAAAAAAAAAAAAAAAAAAAAAAAAAAAAA1" "wallet" 1000 "1" 0 none)]
        none := by decide
  refine ⟨hmem, ?_⟩
  exact ((activity_feed_bounds ⟨fun _ => [], fun _ => [], fun _ => [], fun _ => [], fun _ => []⟩
      _ none 50).2.2 _ hmem).2.2 (by decide)

end WalletMonitoring
